import Mathlib

/-!
Shallow embedding of the image Q&A chat application (src/app.py).

The application keeps, in per-session state:
  - `messages`        : the chat transcript (role/content pairs),
  - `current_image`   : the name of the pinned image, when one is pinned,
  - `image_uploaded`  : the flag guarding the chat input,
  - `image_bytes`     : the raw bytes of the pinned image, once stored.

Three kinds of triggering events drive the state: an image upload, a
submitted question, and the clear-history button.  The external model is
an oracle from a request (a list of messages) to either a returned text
or an error string.  `step` returns the new state together with the list
of requests issued to the model while handling the event.
-/

/-- One message of a request sent to the external model: a role, the prompt
text, and the attached images, each image a byte sequence. -/
structure Message where
  role : String
  content : String
  images : List (List Nat)
deriving DecidableEq

/-- One turn of the chat transcript, as stored in `st.session_state.messages`:
a role and a text content (Q&A-mode turns carry no image). -/
structure Turn where
  role : String
  content : String
deriving DecidableEq

/-- The per-session state of the application. `image_bytes` is `none` while
the `image_bytes` attribute has never been stored. -/
structure AppState where
  messages : List Turn
  current_image : Option String
  image_uploaded : Bool
  image_bytes : Option (List Nat)
deriving DecidableEq

/-- The initial session state set up at the top of the script. -/
def initState : AppState :=
  { messages := [], current_image := none, image_uploaded := false, image_bytes := none }

/-- A triggering event: a file upload, a submitted question, or the
Clear Chat History button. -/
inductive Event where
  | upload (name : String) (bytes : List Nat)
  | ask (question : String)
  | clear
deriving DecidableEq

/-- A request to the external model: the `messages` argument of `chat(...)`. -/
abbrev Request := List Message

/-- The external model, abstracted: maps a request to the returned text
(`Except.ok`) or a raised exception rendered as a string (`Except.error`). -/
abbrev Oracle := Request → Except String String

/-- The announcement appended after a successful upload:
`f"Image '{uploaded_file.name}' uploaded successfully! Ask me anything about this image."` -/
def announceText (name : String) : String :=
  "Image \x27" ++ name ++ "\x27 uploaded successfully! Ask me anything about this image."

/-- The fixed remediation hint closing every error message. -/
def remediationHint : String :=
  "Make sure Ollama is running and the \x27gpt-oss:20b\x27 model is installed."

/-- The diagnostic appended when the model call raises:
`f"Error: {str(e)}\n\nMake sure Ollama is running and the 'gpt-oss:20b' model is installed."` -/
def errorMessage (e : String) : String :=
  "Error: " ++ e ++ "\n\n" ++ remediationHint

/-- The request built for a submitted question: one user message with the
verbatim question and the single pinned image. -/
def questionRequest (q : String) (bytes : List Nat) : Request :=
  [{ role := "user", content := q, images := [bytes] }]

/-- One run of the script body handling one triggering event, returning the
new session state and the list of model requests issued.

  - `clear`  : lines 45-49, empties `messages`, resets `current_image` and
    `image_uploaded`; `image_bytes` is not touched.
  - `upload` : lines 63-79, guarded by `current_image != uploaded_file.name`;
    on a new name it pins the name, sets the flag, empties the transcript,
    stores the bytes and appends the announcement turn.
  - `ask`    : lines 91-136, only reachable when `image_uploaded` is set;
    appends the user turn, calls the model once with a fresh single-message
    request, and appends either the returned text or the diagnostic. -/
def step (o : Oracle) (s : AppState) (e : Event) : AppState × List Request :=
  match e with
  | .clear =>
      ({ s with messages := [], current_image := none, image_uploaded := false }, [])
  | .upload name bytes =>
      if s.current_image ≠ some name then
        ({ messages := [⟨"assistant", announceText name⟩],
           current_image := some name,
           image_uploaded := true,
           image_bytes := some bytes }, [])
      else
        (s, [])
  | .ask q =>
      if s.image_uploaded then
        let withUser := s.messages ++ [⟨"user", q⟩]
        let req := questionRequest q (s.image_bytes.getD [])
        match o req with
        | .ok t =>
            ({ s with messages := withUser ++ [⟨"assistant", t⟩] }, [req])
        | .error err =>
            ({ s with messages := withUser ++ [⟨"assistant", errorMessage err⟩] }, [req])
      else
        (s, [])

/-- Run a list of events from a state, keeping only the final state. -/
def runEvents (o : Oracle) (s : AppState) (es : List Event) : AppState :=
  es.foldl (fun st e => (step o st e).1) s

/-- States reachable from the initial state by any events and any oracle. -/
inductive Reachable : AppState → Prop where
  | init : Reachable initState
  | next {s : AppState} (o : Oracle) (e : Event) : Reachable s → Reachable (step o s e).1

/-- Invariant tying the fields of a reachable state together: the flag holds
iff a name is pinned; when it holds, bytes are stored and the transcript is
non-empty; and a non-empty transcript starts with the announcement of the
pinned name. -/
def StateWF (s : AppState) : Prop :=
  (s.image_uploaded = true ↔ s.current_image ≠ none) ∧
  (s.image_uploaded = true → s.image_bytes ≠ none ∧ s.messages ≠ []) ∧
  (∀ t ts, s.messages = t :: ts →
    ∃ n, s.current_image = some n ∧ t = ⟨"assistant", announceText n⟩)

theorem stateWF_init : StateWF initState := by
  refine ⟨by simp [initState], by simp [initState], ?_⟩
  intro t ts h
  simp [initState] at h

theorem stateWF_step (o : Oracle) (e : Event) {s : AppState} (hs : StateWF s) :
    StateWF (step o s e).1 := by
  obtain ⟨h1, h2, h3⟩ := hs
  cases e with
  | clear =>
      refine ⟨by simp [step], by simp [step], ?_⟩
      intro t ts h
      simp [step] at h
  | upload name bytes =>
      by_cases hname : s.current_image ≠ some name
      · refine ⟨by simp [step, hname], by simp [step, hname], ?_⟩
        intro t ts h
        simp [step, hname] at h
        exact ⟨name, by simp [step, hname], h.1.symm⟩
      · simp only [step, if_neg hname]
        exact ⟨h1, h2, h3⟩
  | ask q =>
      by_cases hup : s.image_uploaded = true
      · have hmsg := (h2 hup).2
        obtain ⟨m, ms, hm⟩ := List.exists_cons_of_ne_nil hmsg
        cases hcall : o (questionRequest q (s.image_bytes.getD [])) with
        | ok t =>
            refine ⟨by simp [step, hup, hcall]; exact h1.mp hup, ?_, ?_⟩
            · intro _
              constructor
              · simpa [step, hup, hcall] using (h2 hup).1
              · simp [step, hup, hcall]
            · intro t' ts' h'
              simp only [step, hup, if_true, hcall] at h'
              rw [hm] at h'
              simp at h'
              obtain ⟨n, hn, ht⟩ := h3 m ms hm
              exact ⟨n, by simpa [step, hup, hcall] using hn, by rw [h'.1.symm]; exact ht⟩
        | error err =>
            refine ⟨by simp [step, hup, hcall]; exact h1.mp hup, ?_, ?_⟩
            · intro _
              constructor
              · simpa [step, hup, hcall] using (h2 hup).1
              · simp [step, hup, hcall]
            · intro t' ts' h'
              simp only [step, hup, if_true, hcall] at h'
              rw [hm] at h'
              simp at h'
              obtain ⟨n, hn, ht⟩ := h3 m ms hm
              exact ⟨n, by simpa [step, hup, hcall] using hn, by rw [h'.1.symm]; exact ht⟩
      · simp only [step, Bool.not_eq_true] at hup
        simp only [step, hup, if_neg]
        exact ⟨h1, h2, h3⟩

theorem reachable_wf {s : AppState} (hs : Reachable s) : StateWF s := by
  induction hs with
  | init => exact stateWF_init
  | next o e _ ih => exact stateWF_step o e ih

/-- A concrete oracle used by witnesses: always answers with a fixed text. -/
def okOracle : Oracle := fun _ => Except.ok "The image shows a dog."

/-- A concrete oracle used by witnesses: always raises. -/
def failOracle : Oracle := fun _ => Except.error "connection refused"

/-- A concrete session state with `dog.png` pinned, as produced by an upload. -/
def pinnedState : AppState :=
  { messages := [⟨"assistant", announceText "dog.png"⟩],
    current_image := some "dog.png",
    image_uploaded := true,
    image_bytes := some [1, 2] }

/-- Claim C1: uploading a file whose name differs from the pinned name (or
with nothing pinned) leaves a session of length exactly one, holding only the
assistant announcement turn, and pins the uploaded name and bytes. -/
theorem pinTriggersReset (o : Oracle) (s : AppState) (name : String) (bytes : List Nat)
    (h : s.current_image ≠ some name) :
    step o s (.upload name bytes) =
      ({ messages := [⟨"assistant", announceText name⟩],
         current_image := some name,
         image_uploaded := true,
         image_bytes := some bytes }, []) ∧
    (step o s (.upload name bytes)).1.messages.length = 1 := by
  constructor
  · simp [step, h]
  · simp [step, h]

theorem pinTriggersReset_witness :
    initState.current_image ≠ some "dog.png" ∧
    (step okOracle initState (.upload "dog.png" [1, 2]) =
      ({ messages := [⟨"assistant", announceText "dog.png"⟩],
         current_image := some "dog.png",
         image_uploaded := true,
         image_bytes := some [1, 2] }, []) ∧
     (step okOracle initState (.upload "dog.png" [1, 2])).1.messages.length = 1) :=
  ⟨by decide, pinTriggersReset okOracle initState "dog.png" [1, 2] (by decide)⟩

/-- Claim C4: uploading a file with the same name as the pinned image is a
no-op: the state (session, pinned name, pinned bytes) is unchanged, even when
the uploaded bytes differ, and no model request is issued. -/
theorem sameNameNoOp (o : Oracle) (s : AppState) (name : String) (bytes : List Nat)
    (h : s.current_image = some name) :
    step o s (.upload name bytes) = (s, []) := by
  simp [step, h]

theorem sameNameNoOp_witness :
    pinnedState.current_image = some "dog.png" ∧
    step okOracle pinnedState (.upload "dog.png" [9, 9]) = (pinnedState, []) :=
  ⟨rfl, sameNameNoOp okOracle pinnedState "dog.png" [9, 9] rfl⟩

/-- Claim C5: in every reachable state with no image pinned, a submitted
question leaves the state unchanged and issues no model request. -/
theorem questionRequiresPin (o : Oracle) (s : AppState) (q : String)
    (hs : Reachable s) (hnone : s.current_image = none) :
    step o s (.ask q) = (s, []) := by
  have hwf := reachable_wf hs
  have hup : s.image_uploaded = false := by
    cases h : s.image_uploaded with
    | false => rfl
    | true => exact absurd hnone (hwf.1.mp h)
  simp [step, hup]

theorem questionRequiresPin_witness :
    Reachable initState ∧ initState.current_image = none ∧
    step okOracle initState (.ask "What breed?") = (initState, []) :=
  ⟨Reachable.init, rfl, questionRequiresPin okOracle initState "What breed?" Reachable.init rfl⟩

/-- Claim C9: in every reachable state with a non-empty session, the first
turn is the assistant announcement for the currently pinned name. -/
theorem firstTurnIsAnnouncement (s : AppState) (hs : Reachable s) (t : Turn) (ts : List Turn)
    (h : s.messages = t :: ts) :
    ∃ n, s.current_image = some n ∧ t.role = "assistant" ∧ t.content = announceText n := by
  obtain ⟨n, hn, ht⟩ := (reachable_wf hs).2.2 t ts h
  exact ⟨n, hn, by rw [ht], by rw [ht]⟩

theorem firstTurnIsAnnouncement_witness :
    Reachable (step okOracle initState (.upload "dog.png" [1, 2])).1 ∧
    (step okOracle initState (.upload "dog.png" [1, 2])).1.messages =
      (⟨"assistant", announceText "dog.png"⟩ : Turn) :: [] ∧
    ∃ n, (step okOracle initState (.upload "dog.png" [1, 2])).1.current_image = some n ∧
      (⟨"assistant", announceText "dog.png"⟩ : Turn).role = "assistant" ∧
      (⟨"assistant", announceText "dog.png"⟩ : Turn).content = announceText n :=
  ⟨Reachable.next okOracle (.upload "dog.png" [1, 2]) Reachable.init, rfl,
    firstTurnIsAnnouncement _ (Reachable.next okOracle (.upload "dog.png" [1, 2]) Reachable.init)
      _ _ rfl⟩

/-- Claim C6, counterexample: after upload of `dog.png` followed by the clear
action, the raw bytes of the pinned image are still stored in session state,
so pinned-image data does remain after a clear. -/
theorem clearKeepsBytes_cex :
    ((step okOracle (step okOracle initState (.upload "dog.png" [1, 2, 3])).1 .clear).1).image_bytes
      = some [1, 2, 3] := by
  decide

/-- Claim C6, amended: the clear action empties the session, unpins the name
and resets the uploaded flag, but leaves the stored raw bytes in place. -/
theorem clearBehavior (o : Oracle) (s : AppState) :
    step o s .clear =
      ({ s with messages := [], current_image := none, image_uploaded := false }, []) ∧
    (step o s .clear).1.image_bytes = s.image_bytes :=
  ⟨rfl, rfl⟩

/-- Claim C2: a question submitted while an image is pinned appends the
verbatim user turn (with no image on the turn), issues exactly one request
consisting of a single user message carrying the verbatim question and the
pinned bytes — no prior history — and on success appends exactly one
assistant turn with the returned text verbatim. -/
theorem askSuccess (o : Oracle) (s : AppState) (q t : String) (b : List Nat)
    (hup : s.image_uploaded = true) (hb : s.image_bytes = some b)
    (hok : o (questionRequest q b) = Except.ok t) :
    step o s (.ask q) =
      ({ s with messages := s.messages ++ [⟨"user", q⟩, ⟨"assistant", t⟩] },
       [questionRequest q b]) := by
  simp [step, hup, hb, hok]

theorem askSuccess_witness :
    pinnedState.image_uploaded = true ∧ pinnedState.image_bytes = some [1, 2] ∧
    okOracle (questionRequest "What breed?" [1, 2]) = Except.ok "The image shows a dog." ∧
    step okOracle pinnedState (.ask "What breed?") =
      ({ pinnedState with messages := pinnedState.messages ++
          [⟨"user", "What breed?"⟩, ⟨"assistant", "The image shows a dog."⟩] },
       [questionRequest "What breed?" [1, 2]]) :=
  ⟨rfl, rfl, rfl, askSuccess okOracle pinnedState "What breed?" "The image shows a dog." [1, 2]
    rfl rfl rfl⟩

theorem string_append_assoc_aux (a b c : String) : a ++ b ++ c = a ++ (b ++ c) := by
  apply String.ext
  simp

/-- Claim C3: when the model call raises, exactly one assistant turn records
the failure, its content starts with the text Error: and ends with the fixed
remediation hint, the handler returns normally with the rest of the state
unchanged. -/
theorem askFailureIsolated (o : Oracle) (s : AppState) (q err : String) (b : List Nat)
    (hup : s.image_uploaded = true) (hb : s.image_bytes = some b)
    (herr : o (questionRequest q b) = Except.error err) :
    step o s (.ask q) =
      ({ s with messages := s.messages ++ [⟨"user", q⟩, ⟨"assistant", errorMessage err⟩] },
       [questionRequest q b]) ∧
    ∃ mid, errorMessage err = "Error:" ++ (mid ++ remediationHint) := by
  constructor
  · simp [step, hup, hb, herr]
  · refine ⟨" " ++ err ++ "\n\n", ?_⟩
    show "Error: " ++ err ++ "\n\n" ++ remediationHint = _
    apply String.ext
    have hdata : ("Error: " : String).data = ("Error:" : String).data ++ (" " : String).data := rfl
    simp [hdata, List.append_assoc]

theorem askFailureIsolated_witness :
    pinnedState.image_uploaded = true ∧ pinnedState.image_bytes = some [1, 2] ∧
    failOracle (questionRequest "What breed?" [1, 2]) = Except.error "connection refused" ∧
    (step failOracle pinnedState (.ask "What breed?") =
      ({ pinnedState with messages := pinnedState.messages ++
          [⟨"user", "What breed?"⟩, ⟨"assistant", errorMessage "connection refused"⟩] },
       [questionRequest "What breed?" [1, 2]]) ∧
     ∃ mid, errorMessage "connection refused" = "Error:" ++ (mid ++ remediationHint)) :=
  ⟨rfl, rfl, rfl, askFailureIsolated failOracle pinnedState "What breed?" "connection refused"
    [1, 2] rfl rfl rfl⟩

/-- True of an event that is neither the clear action nor an upload whose
name differs from the currently pinned one. -/
def nonResetEvent (s : AppState) : Event → Bool
  | .clear => false
  | .upload name _ => s.current_image == some name
  | .ask _ => true

/-- True of an event list in which, along the run from `s`, no event is the
clear action or an upload of a differently named image. -/
def noResetTrace (o : Oracle) : AppState → List Event → Bool
  | _, [] => true
  | s, e :: es => nonResetEvent s e && noResetTrace o (step o s e).1 es

theorem step_messages_extend (o : Oracle) (s : AppState) (e : Event)
    (h : nonResetEvent s e = true) :
    ∃ t, (step o s e).1.messages = s.messages ++ t := by
  cases e with
  | clear => simp [nonResetEvent] at h
  | upload name bytes =>
      simp [nonResetEvent] at h
      exact ⟨[], by simp [step, h]⟩
  | ask q =>
      by_cases hup : s.image_uploaded = true
      · cases hcall : o (questionRequest q (s.image_bytes.getD [])) with
        | ok t =>
            exact ⟨[⟨"user", q⟩, ⟨"assistant", t⟩], by simp [step, hup, hcall]⟩
        | error err =>
            exact ⟨[⟨"user", q⟩, ⟨"assistant", errorMessage err⟩], by simp [step, hup, hcall]⟩
      · exact ⟨[], by simp [step, hup]⟩

/-- Claim C7: along any run containing no clear action and no upload of a
differently named image, the session only grows by appends at the end: the
starting transcript is an unchanged prefix of the final one. -/
theorem appendOnly (o : Oracle) (s : AppState) (es : List Event)
    (h : noResetTrace o s es = true) :
    ∃ t, (runEvents o s es).messages = s.messages ++ t := by
  induction es generalizing s with
  | nil => exact ⟨[], by simp [runEvents]⟩
  | cons e es ih =>
      rw [noResetTrace, Bool.and_eq_true] at h
      obtain ⟨t1, h1⟩ := step_messages_extend o s e h.1
      obtain ⟨t2, h2⟩ := ih (step o s e).1 h.2
      refine ⟨t1 ++ t2, ?_⟩
      have hrun : runEvents o s (e :: es) = runEvents o (step o s e).1 es := rfl
      rw [hrun, h2, h1, List.append_assoc]

theorem appendOnly_witness :
    noResetTrace okOracle pinnedState [.ask "What breed?", .upload "dog.png" [9]] = true ∧
    ∃ t, (runEvents okOracle pinnedState [.ask "What breed?", .upload "dog.png" [9]]).messages =
      pinnedState.messages ++ t :=
  ⟨rfl, appendOnly okOracle pinnedState [.ask "What breed?", .upload "dog.png" [9]] rfl⟩

/-- Claim C10: image identity is the filename alone: re-uploading the pinned
name with different bytes does not update the stored bytes, and a subsequent
question still sends the originally stored bytes to the model. -/
theorem nameOnlyIdentity (o : Oracle) (s : AppState) (n q : String) (b b2 : List Nat)
    (hc : s.current_image = some n) (hb : s.image_bytes = some b)
    (hup : s.image_uploaded = true) (_hne : b2 ≠ b) :
    (step o s (.upload n b2)).1.image_bytes = some b ∧
    (step o (step o s (.upload n b2)).1 (.ask q)).2 = [questionRequest q b] := by
  have hstate : step o s (.upload n b2) = (s, []) := by simp [step, hc]
  rw [hstate]
  refine ⟨hb, ?_⟩
  cases hcall : o (questionRequest q b) with
  | ok t => simp [step, hup, hb, hcall]
  | error err => simp [step, hup, hb, hcall]

theorem nameOnlyIdentity_witness :
    pinnedState.current_image = some "dog.png" ∧ pinnedState.image_bytes = some [1, 2] ∧
    pinnedState.image_uploaded = true ∧ ([9, 9] : List Nat) ≠ [1, 2] ∧
    ((step okOracle pinnedState (.upload "dog.png" [9, 9])).1.image_bytes = some [1, 2] ∧
     (step okOracle (step okOracle pinnedState (.upload "dog.png" [9, 9])).1
        (.ask "What breed?")).2 = [questionRequest "What breed?" [1, 2]]) :=
  ⟨rfl, rfl, rfl, by decide,
    nameOnlyIdentity okOracle pinnedState "dog.png" "What breed?" [1, 2] [9, 9]
      rfl rfl rfl (by decide)⟩

/-- One turn of the Describe-mode transcript: role, text content, and the
image shown with the turn, when any. -/
structure DTurn where
  role : String
  content : String
  image : Option (List Nat)
deriving DecidableEq

/-- Modelled from the spec: the fixed, detailed Describe-mode model prompt
(the Describe-mode source file is not under src/; only the Q&A variant is). -/
def describePrompt : String :=
  "Describe this image in detail. What objects, people, or scenes do you see? What are the colors, composition, and mood?"

/-- Modelled from the spec: the single-message Describe-mode request carrying
the fixed prompt and the uploaded bytes. -/
def describeRequest (bytes : List Nat) : Request :=
  [{ role := "user", content := describePrompt, images := [bytes] }]

/-- Modelled from the spec: the Describe-mode upload handler (its source file
is not under src/). Each uploaded-file event appends a user turn with the
fixed text and the embedded image, issues exactly one model request with the
fixed detailed prompt and the uploaded bytes, and appends one assistant turn
holding the returned text, or the diagnostic on failure; the existing history
is never reset. -/
def describeUpload (o : Oracle) (hist : List DTurn) (bytes : List Nat) :
    List DTurn × List Request :=
  let withUser := hist ++ [⟨"user", "Please describe this image:", some bytes⟩]
  match o (describeRequest bytes) with
  | .ok t => (withUser ++ [⟨"assistant", t, none⟩], [describeRequest bytes])
  | .error err => (withUser ++ [⟨"assistant", errorMessage err, none⟩], [describeRequest bytes])

/-- Claim C8: in the Describe-mode variant, every upload issues exactly one
model request with the fixed describe prompt and appends, to the unreset
existing history, one user turn reading Please describe this image: with the
image bytes, followed by one assistant turn with the returned text. -/
theorem describeModeUpload (o : Oracle) (hist : List DTurn) (bytes : List Nat) (t : String)
    (hok : o (describeRequest bytes) = Except.ok t) :
    describeUpload o hist bytes =
      (hist ++ [⟨"user", "Please describe this image:", some bytes⟩, ⟨"assistant", t, none⟩],
       [describeRequest bytes]) := by
  simp [describeUpload, hok]

theorem describeModeUpload_witness :
    okOracle (describeRequest [1, 2]) = Except.ok "The image shows a dog." ∧
    describeUpload okOracle [⟨"user", "hello", none⟩] [1, 2] =
      ([⟨"user", "hello", none⟩,
        ⟨"user", "Please describe this image:", some [1, 2]⟩,
        ⟨"assistant", "The image shows a dog.", none⟩],
       [describeRequest [1, 2]]) :=
  ⟨rfl, describeModeUpload okOracle [⟨"user", "hello", none⟩] [1, 2] "The image shows a dog." rfl⟩
